import Mathlib

set_option maxHeartbeats 1000000

/-
Verification of the update-message protocol and UI-reconciliation engine of
bitcoinbackup/blockchain_backup.

Embedded source files:
  source/static/js/bitcoin.js    (pull model: process_response, update_html,
                                  update_attribute, update_element, update_location)
  source/static/js/blockchain.js (push model: update)

JavaScript strings are modelled as lists of characters; the live element tree
as a list of elements in document order; console logging is dropped (it is the
diagnostic side channel only); a thrown JavaScript exception is modelled by the
error component of the result.  bitcoin.js carries a `use strict` directive, so
an assignment to an undeclared variable and a read of an out-of-scope variable
both raise ReferenceError; these two slips are modelled faithfully where they
occur (update_attribute and update_element below).
-/

namespace BlockchainBackup

/-- JavaScript strings, modelled as lists of characters. -/
abbrev JStr := List Char

/-- Character list of a Lean string literal (used for the JS string literals). -/
def js (s : String) : JStr := s.data

/-- JS `String.prototype.indexOf` for a substring: position of the first
occurrence, with `none` standing for the JS result -1. -/
def idxOf? (sub : JStr) : JStr → Option Nat
  | [] => if sub.isPrefixOf ([] : JStr) then some 0 else none
  | c :: t => if sub.isPrefixOf (c :: t) then some 0 else (idxOf? sub t).map (· + 1)

/-- A live element of the page tree.  The class attribute is modelled by the
dedicated `className` field (mirroring `element.className` in the DOM); the
other declared attributes by the association list `attrs`; `styleWidth`
models `element.style.width`; `innerHTML` the content markup. -/
structure Elem where
  id : Option JStr
  name : Option JStr
  className : JStr
  attrs : List (JStr × JStr)
  innerHTML : JStr
  styleWidth : JStr
deriving DecidableEq

/-- DOM `element.hasAttribute`. -/
def hasAttribute (e : Elem) (a : JStr) : Bool :=
  e.attrs.any (fun p => decide (p.1 = a))

/-- DOM `element.setAttribute`: overwrite the value when the attribute is
declared, append it otherwise. -/
def setAttribute (e : Elem) (a v : JStr) : Elem :=
  if hasAttribute e a then
    { e with attrs := e.attrs.map (fun p => if p.1 = a then (a, v) else p) }
  else
    { e with attrs := e.attrs ++ [(a, v)] }

/-- DOM `element.getAttribute`. -/
def getAttribute (e : Elem) (a : JStr) : Option JStr :=
  (e.attrs.find? (fun p => decide (p.1 = a))).map (fun p => p.2)

/-- The `while (k >= 0)` loop of the `state == enabled` branch of
`update_element` in bitcoin.js: repeatedly truncate the class string at the
first occurrence of "disabled" (`className.slice(0, k)`).  The fuel argument
bounds the number of iterations; every iteration strictly shortens the string,
so callers pass `length + 1`, which always suffices. -/
def enableLoop : Nat → JStr → JStr
  | 0, cn => cn
  | fuel + 1, cn =>
    match idxOf? (js "disabled") cn with
    | none => cn
    | some k => enableLoop fuel (cn.take k)

/-- bitcoin.js `update_element(element, attr, value)`.  The error component
models a thrown exception.  In the `style` branch, when the element lacks a
`style` attribute, the source executes
`console.log('unknown property for style: ' + property)` where `property` is a
`let` binding of the sibling block and hence out of scope: under `use strict`
this read raises ReferenceError. -/
def update_element (e : Elem) (attr value : JStr) : Except JStr Elem :=
  if attr = js "state" then
    if value = js "enabled" then
      .ok { e with className := enableLoop (e.className.length + 1) e.className }
    else
      match idxOf? (js "disabled") e.className with
      | none => .ok { e with className := e.className ++ js " " ++ value }
      | some _ => .ok e
  else if attr = js "style" then
    if hasAttribute e (js "style") then
      match idxOf? (js ":") value with
      | some i =>
        if value.take i = js "width" then
          .ok { e with styleWidth := value.drop (i + 1) ++ js "%" }
        else
          .ok (setAttribute e (js "style") value)
      | none =>
        -- indexOf gave -1: substring(0,-1) is "" and is not "width"
        .ok (setAttribute e (js "style") value)
    else
      .error (js "ReferenceError: property is not defined")
  else
    if hasAttribute e attr then
      .ok (setAttribute e attr value)
    else
      .ok { e with innerHTML := value }

/-- The live tree, as the list of elements in document order. -/
abbrev Doc := List Elem

/-- Mutate the first element satisfying the predicate (the element returned by
`document.getElementById`), leaving every other element unchanged. -/
def mapFirst (p : Elem → Bool) (f : Elem → Elem) : Doc → Doc
  | [] => []
  | e :: t => if p e then f e :: t else e :: mapFirst p f t

/-- bitcoin.js `update_html(name, value)`: `getElementById` first; if it finds
an element set its `innerHTML`; otherwise set the `innerHTML` of every element
of `getElementsByName` (a NodeList is always truthy, so the final log branch of
the source is unreachable and an empty collection simply does nothing). -/
def update_html (nm value : JStr) (doc : Doc) : Doc :=
  match doc.find? (fun e => decide (e.id = some nm)) with
  | some _ =>
    mapFirst (fun e => decide (e.id = some nm)) (fun e => { e with innerHTML := value }) doc
  | none =>
    doc.map (fun e => if e.name = some nm then { e with innerHTML := value } else e)

/-- The `for` loop of `update_attribute` over `getElementsByName(name)`:
apply `update_element` to every element whose name matches; a thrown exception
leaves the current element and the remaining ones untouched and propagates. -/
def applyToNamed (nm attr value : JStr) : Doc → Doc × Option JStr
  | [] => ([], none)
  | e :: t =>
    if e.name = some nm then
      match update_element e attr value with
      | .ok e2 =>
        let r := applyToNamed nm attr value t
        (e2 :: r.1, r.2)
      | .error msg => (e :: t, some msg)
    else
      let r := applyToNamed nm attr value t
      (e :: r.1, r.2)

/-- bitcoin.js `update_attribute(name, value)`.  The value must be truthy and
contain `=` (split at the first `=`); the named-group lookup comes first; in
the empty-group branch the source assigns `id_element = ...` without a
declaration, which under `use strict` raises ReferenceError before the
identifier element is ever consulted. -/
def update_attribute (nm value : JStr) (doc : Doc) : Doc × Option JStr :=
  if value ≠ [] ∧ (idxOf? (js "=") value).isSome then
    match idxOf? (js "=") value with
    | some j =>
      if doc.any (fun e => decide (e.name = some nm)) then
        applyToNamed nm (value.take j) (value.drop (j + 1)) doc
      else
        (doc, some (js "ReferenceError: id_element is not defined"))
    | none => (doc, none)
  else
    (doc, none)

/-- The browser-visible state touched by the engine: the tree, the current
location path, and the list of navigations performed
(`window.location.assign` calls), in order. -/
structure PullState where
  doc : Doc
  path : JStr
  navs : List JStr
deriving DecidableEq

/-- bitcoin.js `update_location(url)`: navigate only when the proposed url is
defined and differs from the current location path. -/
def update_location (url : Option JStr) (st : PullState) : PullState :=
  match url with
  | none => st
  | some u => if u ≠ st.path then { st with navs := st.navs ++ [u] } else st

/-- One decoded update message: field names with their values, in iteration
order of the JSON object. -/
abbrev Msg := List (JStr × JStr)

/-- Routing of a single field by the `for (var name in data)` body of
`process_response` in bitcoin.js. -/
def dispatch_field (st : PullState) (nm v : JStr) : PullState × Option JStr :=
  if nm = js "header" ∨ nm = js "notice" ∨ nm = js "subnotice" ∨ nm = js "progress" then
    ({ st with doc := update_html nm v st.doc }, none)
  else if nm = js "alert" ∨ nm = js "nav-link" then
    ({ st with doc := (update_attribute nm v st.doc).1 }, (update_attribute nm v st.doc).2)
  else if nm = js "location" then
    (update_location (some v) st, none)
  else
    (st, none)

/-- The field loop of `process_response`: fields are processed in order; a
thrown exception aborts the loop, leaving the remaining fields unprocessed. -/
def dispatch_fields (st : PullState) : Msg → PullState × Option JStr
  | [] => (st, none)
  | (nm, v) :: rest =>
    if (dispatch_field st nm v).2 = none then
      dispatch_fields (dispatch_field st nm v).1 rest
    else
      dispatch_field st nm v

/-- Lookup of a field of a decoded message (JS property access `data[name]`). -/
def lookupField (data : Msg) (nm : JStr) : Option JStr :=
  (data.find? (fun p => decide (p.1 = nm))).map (fun p => p.2)

/-- One delivered response body of the pull model.  `missing` is an undefined
response; `malformed` is a body on which the platform primitive `JSON.parse`
throws; `parsed` is a well-formed body with its decoded message. -/
inductive Body where
  | missing : Body
  | malformed : JStr → Body
  | parsed : Msg → Body
deriving DecidableEq

/-- bitcoin.js `process_response(message)`.  An undefined message is skipped;
a malformed body makes `JSON.parse` throw before any mutation (the exception
is uncaught and surfaces on the console); on a decoded message, a truthy
`error` field is only logged and nothing is applied; otherwise every field is
routed by `dispatch_field`. -/
def process_response (body : Body) (st : PullState) : PullState × Option JStr :=
  match body with
  | .missing => (st, none)
  | .malformed _ => (st, some (js "SyntaxError: unexpected token in JSON"))
  | .parsed data =>
    match lookupField data (js "error") with
    | some ev => if ev ≠ [] then (st, none) else dispatch_fields st data
    | none => dispatch_fields st data

/-- The pull delivery loop: `setInterval(update_ajax, ...)` invokes
`process_response` once per delivered body; an exception escaping one callback
is contained by the event loop, so the following ticks still run. -/
def pull_deliver (st : PullState) (bodies : List Body) : PullState :=
  bodies.foldl (fun s b => (process_response b s).1) st

/-- Modelled from the spec: the push page `update_html(updates, names)` helper
called by blockchain.js is not under src/ (only its caller is).  Per the spec,
each listed field present in the message is forwarded to the content updater
with the same downstream semantics as the pull variant. -/
def push_update_html (updates : Msg) (names : List JStr) (doc : Doc) : Doc :=
  names.foldl
    (fun d nm =>
      match lookupField updates nm with
      | some v => update_html nm v d
      | none => d) doc

/-- Modelled from the spec: the push page `update_attributes(updates, names)`
helper is not under src/.  Per the spec, each listed field present is forwarded
to the attribute patcher, and a per-field failure skips only that field. -/
def push_update_attributes (updates : Msg) (names : List JStr) (doc : Doc) : Doc :=
  names.foldl
    (fun d nm =>
      match lookupField updates nm with
      | some v => (update_attribute nm v d).1
      | none => d) doc

/-- Modelled from the spec: the push page `update_location(updates, names)`
helper is not under src/.  Per the spec, a present listed field is forwarded to
the navigation guard with the same semantics as the pull variant. -/
def push_update_location (updates : Msg) (names : List JStr) (st : PullState) : PullState :=
  names.foldl
    (fun s nm =>
      match lookupField updates nm with
      | some v => update_location (some v) s
      | none => s) st

/-- blockchain.js `update(data)` (push model), taken after the platform decode
step `JSON.parse(data.update)`: content fields first (note the extra `button`),
then attribute fields, then the location field. -/
def update (updates : Msg) (st : PullState) : PullState :=
  let d1 := push_update_html updates
    [js "header", js "notice", js "subnotice", js "progress", js "button"] st.doc
  let d2 := push_update_attributes updates [js "alert", js "nav-link"] d1
  push_update_location updates [js "location"] { st with doc := d2 }

/-! Helper lemmas about the JS string primitives. -/

theorem isPrefixOf_of_take (sub : JStr) :
    ∀ (l : JStr) (m : Nat), sub.isPrefixOf (l.take m) = true → sub.isPrefixOf l = true := by
  induction sub with
  | nil => intro l m _; cases l <;> rfl
  | cons c cs ih =>
    intro l m h
    cases l with
    | nil => simp at h
    | cons d ds =>
      cases m with
      | zero => simp [List.isPrefixOf] at h
      | succ m =>
        simp only [List.take, List.isPrefixOf, Bool.and_eq_true] at h ⊢
        exact ⟨h.1, ih ds m h.2⟩

theorem idxOf?_lt_length {sub : JStr} (hsub : sub ≠ []) :
    ∀ {s : JStr} {k : Nat}, idxOf? sub s = some k → k < s.length := by
  intro s
  induction s with
  | nil =>
    intro k h
    cases sub with
    | nil => exact absurd rfl hsub
    | cons c cs => simp [idxOf?, List.isPrefixOf] at h
  | cons c t ih =>
    intro k h
    by_cases hp : sub.isPrefixOf (c :: t) = true
    · simp [idxOf?, hp] at h
      simp only [List.length_cons]
      omega
    · simp [idxOf?, hp] at h
      obtain ⟨k2, hk2, hkk⟩ := h
      have := ih hk2
      simp only [List.length_cons]
      omega

theorem idxOf?_take_first {sub : JStr} (hsub : sub ≠ []) :
    ∀ {s : JStr} {k : Nat}, idxOf? sub s = some k → idxOf? sub (s.take k) = none := by
  intro s
  induction s with
  | nil =>
    intro k h
    cases sub with
    | nil => exact absurd rfl hsub
    | cons c cs => simp [idxOf?, List.isPrefixOf] at h
  | cons c t ih =>
    intro k h
    by_cases hp : sub.isPrefixOf (c :: t) = true
    · simp [idxOf?, hp] at h
      subst h
      cases sub with
      | nil => exact absurd rfl hsub
      | cons d ds => simp [idxOf?, List.isPrefixOf]
    · simp [idxOf?, hp] at h
      obtain ⟨k2, hk2, hkk⟩ := h
      subst hkk
      have htail := ih hk2
      have hp2 : sub.isPrefixOf ((c :: t).take (k2 + 1)) = false := by
        by_contra hcon
        simp only [Bool.not_eq_false] at hcon
        exact hp (isPrefixOf_of_take sub (c :: t) (k2 + 1) hcon)
      simp only [List.take_succ_cons] at hp2
      simp [idxOf?, hp2, htail]

theorem idxOf?_isSome_iff_occurs (sub : JStr) :
    ∀ (s : JStr), (idxOf? sub s).isSome ↔ sub <:+: s := by
  intro s
  induction s with
  | nil =>
    rw [List.infix_nil]
    cases sub with
    | nil => simp [idxOf?, List.isPrefixOf]
    | cons c cs => simp [idxOf?, List.isPrefixOf]
  | cons c t ih =>
    rw [List.infix_cons_iff]
    by_cases hp : sub.isPrefixOf (c :: t) = true
    · simp only [idxOf?, hp, if_true, Option.isSome_some, true_iff]
      exact Or.inl (List.isPrefixOf_iff_prefix.mp hp)
    · have hp2 : ¬ sub <+: c :: t := fun hc => hp (List.isPrefixOf_iff_prefix.mpr hc)
      simp only [idxOf?]
      rw [if_neg hp]
      simp [Option.isSome_map, ih, hp2]

theorem enableLoop_of_none {cn : JStr} (h : idxOf? (js "disabled") cn = none) (fuel : Nat) :
    enableLoop (fuel + 1) cn = cn := by
  simp [enableLoop, h]

theorem enableLoop_of_some {cn : JStr} {k : Nat} (h : idxOf? (js "disabled") cn = some k) :
    enableLoop (cn.length + 1) cn = cn.take k := by
  have hk : k < cn.length := idxOf?_lt_length (by decide) h
  have h2 : idxOf? (js "disabled") (cn.take k) = none := idxOf?_take_first (by decide) h
  have step : enableLoop (cn.length + 1) cn = enableLoop cn.length (cn.take k) := by
    simp [enableLoop, h]
  rw [step]
  obtain ⟨m, hm⟩ : ∃ m, cn.length = m + 1 := ⟨cn.length - 1, by omega⟩
  rw [hm]
  exact enableLoop_of_none h2 m

theorem idxOf?_enableLoop (cn : JStr) :
    idxOf? (js "disabled") (enableLoop (cn.length + 1) cn) = none := by
  cases h : idxOf? (js "disabled") cn with
  | none => rw [enableLoop_of_none h]; exact h
  | some k => rw [enableLoop_of_some h]; exact idxOf?_take_first (by decide) h

/-! Evaluation lemmas for the branches of update_element and setAttribute. -/

theorem update_element_state_enabled (e : Elem) :
    update_element e (js "state") (js "enabled")
      = .ok { e with className := enableLoop (e.className.length + 1) e.className } := by
  simp [update_element]

theorem update_element_state_found (e : Elem) (v : JStr) (k : Nat)
    (hv : ¬ v = js "enabled") (hk : idxOf? (js "disabled") e.className = some k) :
    update_element e (js "state") v = .ok e := by
  simp [update_element, hv, hk]

theorem update_element_state_missing (e : Elem) (v : JStr)
    (hv : ¬ v = js "enabled") (hk : idxOf? (js "disabled") e.className = none) :
    update_element e (js "state") v
      = .ok { e with className := e.className ++ js " " ++ v } := by
  simp [update_element, hv, hk]

theorem update_element_generic_has (e : Elem) (a v : JStr)
    (h1 : ¬ a = js "state") (h2 : ¬ a = js "style") (ha : hasAttribute e a = true) :
    update_element e a v = .ok (setAttribute e a v) := by
  simp [update_element, h1, h2, ha]

theorem update_element_generic_missing (e : Elem) (a v : JStr)
    (h1 : ¬ a = js "state") (h2 : ¬ a = js "style") (ha : hasAttribute e a = false) :
    update_element e a v = .ok { e with innerHTML := v } := by
  simp [update_element, h1, h2, ha]

theorem setAttribute_innerHTML (e : Elem) (a v : JStr) :
    (setAttribute e a v).innerHTML = e.innerHTML := by
  by_cases h : hasAttribute e a <;> simp [setAttribute, h]

theorem find?_map_overwrite (a v : JStr) :
    ∀ l : List (JStr × JStr), l.any (fun p => decide (p.1 = a)) = true →
      ((l.map (fun p => if p.1 = a then (a, v) else p)).find?
          (fun p => decide (p.1 = a))).map (fun p => p.2) = some v := by
  intro l
  induction l with
  | nil => intro h; simp at h
  | cons q t ih =>
    intro h
    by_cases hq : q.1 = a
    · simp [List.find?_cons, hq]
    · simp only [List.any_cons, Bool.or_eq_true, decide_eq_true_eq] at h
      rcases h with h | h
      · exact absurd h hq
      · simp only [List.map_cons, if_neg hq]
        rw [List.find?_cons_of_neg]
        · exact ih h
        · simp [hq]

theorem getAttribute_setAttribute (e : Elem) (a v : JStr) (h : hasAttribute e a = true) :
    getAttribute (setAttribute e a v) a = some v := by
  simp only [setAttribute, h, if_true, getAttribute]
  exact find?_map_overwrite a v e.attrs h

/-! Lemmas about element preservation under the tree-mutating operations. -/

theorem mapFirst_getElem?_of_neg (p : Elem → Bool) (f : Elem → Elem) :
    ∀ (l : Doc) (i : Nat) (e : Elem), l[i]? = some e → p e = false →
      (mapFirst p f l)[i]? = some e := by
  intro l
  induction l with
  | nil => intro i e h _; simp at h
  | cons a t ih =>
    intro i e h hp
    cases i with
    | zero =>
      simp only [List.getElem?_cons_zero, Option.some.injEq] at h
      subst h
      simp [mapFirst, hp]
    | succ n =>
      simp only [List.getElem?_cons_succ] at h
      by_cases ha : p a = true
      · simp [mapFirst, ha, List.getElem?_cons_succ, h]
      · simp only [mapFirst, if_neg ha, List.getElem?_cons_succ]
        exact ih n e h hp

theorem applyToNamed_getElem?_of_neg (nm attr value : JStr) :
    ∀ (l : Doc) (i : Nat) (e : Elem), l[i]? = some e → ¬ e.name = some nm →
      ((applyToNamed nm attr value l).1)[i]? = some e := by
  intro l
  induction l with
  | nil => intro i e h _; simp at h
  | cons a t ih =>
    intro i e h hn
    cases i with
    | zero =>
      simp only [List.getElem?_cons_zero, Option.some.injEq] at h
      subst h
      simp [applyToNamed, hn]
    | succ n =>
      simp only [List.getElem?_cons_succ] at h
      by_cases ha : a.name = some nm
      · cases hu : update_element a attr value with
        | ok a2 =>
          simp only [applyToNamed, if_pos ha, hu, List.getElem?_cons_succ]
          exact ih n e h hn
        | error msg =>
          simp [applyToNamed, ha, hu, List.getElem?_cons_succ, h]
      · simp only [applyToNamed, if_neg ha, List.getElem?_cons_succ]
        exact ih n e h hn

theorem find?_middle_of_neg {α : Type} (p : α → Bool) (x : α) (hx : p x = false) :
    ∀ (pre post : List α), (pre ++ x :: post).find? p = (pre ++ post).find? p := by
  intro pre post
  induction pre with
  | nil => simp [List.find?_cons, hx]
  | cons a t ih => by_cases ha : p a = true <;> simp [List.find?_cons, ha, ih]

/-! Lemmas about the dispatch loop of process_response. -/

theorem dispatch_fields_single (st : PullState) (nm v : JStr) :
    (dispatch_fields st [(nm, v)]).1 = (dispatch_field st nm v).1 := by
  by_cases h : (dispatch_field st nm v).2 = none <;> simp [dispatch_fields, h]

theorem dispatch_field_of_unknown (st : PullState) (nm v : JStr)
    (h : ¬ nm ∈ ([js "header", js "notice", js "subnotice", js "progress",
                  js "alert", js "nav-link", js "location"] : List JStr)) :
    dispatch_field st nm v = (st, none) := by
  simp only [List.mem_cons, List.not_mem_nil, or_false, not_or] at h
  obtain ⟨h1, h2, h3, h4, h5, h6, h7⟩ := h
  simp [dispatch_field, h1, h2, h3, h4, h5, h6, h7]

theorem dispatch_fields_insert_unknown (nm v : JStr)
    (h : ¬ nm ∈ ([js "header", js "notice", js "subnotice", js "progress",
                  js "alert", js "nav-link", js "location"] : List JStr)) :
    ∀ (pre post : Msg) (st : PullState),
      dispatch_fields st (pre ++ (nm, v) :: post) = dispatch_fields st (pre ++ post) := by
  intro pre
  induction pre with
  | nil =>
    intro post st
    simp [dispatch_fields, dispatch_field_of_unknown st nm v h]
  | cons q t ih =>
    intro post st
    obtain ⟨a, b⟩ := q
    simp only [List.cons_append]
    by_cases hd : (dispatch_field st a b).2 = none
    · rw [show dispatch_fields st ((a, b) :: (t ++ (nm, v) :: post))
            = dispatch_fields (dispatch_field st a b).1 (t ++ (nm, v) :: post) from by
          simp [dispatch_fields, hd]]
      rw [show dispatch_fields st ((a, b) :: (t ++ post))
            = dispatch_fields (dispatch_field st a b).1 (t ++ post) from by
          simp [dispatch_fields, hd]]
      exact ih post (dispatch_field st a b).1
    · simp [dispatch_fields, hd]

/-! Claim theorems. -/

/-- C2: the claim states that an attribute directive with attribute name
`style` applied to an element that does not declare a `style` attribute is
logged and skipped, with no exception and with sibling fields still processed.
The code instead throws: the log statement of that branch reads the
block-scoped variable `property` outside its scope, which under the `use
strict` directive of bitcoin.js raises ReferenceError, so for every element
without a `style` attribute the style branch of `update_element` produces an
exception (which then aborts the remaining fields of the message in
`dispatch_fields`).  The element itself is left unchanged. -/
theorem c2_style_directive_without_style_attribute_throws (e : Elem) (v : JStr)
    (h : hasAttribute e (js "style") = false) :
    update_element e (js "style") v
      = .error (js "ReferenceError: property is not defined") := by
  simp [update_element, h, show ¬ js "style" = js "state" from by decide]

/-- Witness for C2 at a concrete element lacking a `style` attribute. -/
theorem c2_style_directive_without_style_attribute_throws_witness :
    update_element ⟨none, some (js "alert"), js "", [(js "title", js "t")], js "", js ""⟩
        (js "style") (js "width:50")
      = .error (js "ReferenceError: property is not defined") :=
  c2_style_directive_without_style_attribute_throws
    ⟨none, some (js "alert"), js "", [(js "title", js "t")], js "", js ""⟩
    (js "width:50") (by decide)

/-- C8: for a generic (non-state, non-style) attribute directive,
`update_element` overwrites the declared attribute value and leaves the
content markup untouched; when the element does not declare the attribute, the
directive value is written as the content markup and no attribute is
created. -/
theorem c8_generic_attribute_or_content_fallback (e : Elem) (a v : JStr)
    (h1 : ¬ a = js "state") (h2 : ¬ a = js "style") :
    (hasAttribute e a = true →
      update_element e a v = .ok (setAttribute e a v)
      ∧ (setAttribute e a v).innerHTML = e.innerHTML
      ∧ getAttribute (setAttribute e a v) a = some v)
    ∧ (hasAttribute e a = false →
      update_element e a v = .ok { e with innerHTML := v }) := by
  constructor
  · intro ha
    exact ⟨update_element_generic_has e a v h1 h2 ha, setAttribute_innerHTML e a v,
      getAttribute_setAttribute e a v ha⟩
  · intro ha
    exact update_element_generic_missing e a v h1 h2 ha

/-- Witness for C8 on an element that declares a `title` attribute. -/
theorem c8_generic_attribute_or_content_fallback_witness :
    update_element ⟨some (js "alert"), none, js "", [(js "title", js "old")], js "body", js ""⟩
        (js "title") (js "hello")
      = .ok (setAttribute
          ⟨some (js "alert"), none, js "", [(js "title", js "old")], js "body", js ""⟩
          (js "title") (js "hello"))
    ∧ (setAttribute
        ⟨some (js "alert"), none, js "", [(js "title", js "old")], js "body", js ""⟩
        (js "title") (js "hello")).innerHTML = js "body"
    ∧ getAttribute (setAttribute
        ⟨some (js "alert"), none, js "", [(js "title", js "old")], js "body", js ""⟩
        (js "title") (js "hello")) (js "title") = some (js "hello") :=
  (c8_generic_attribute_or_content_fallback
    ⟨some (js "alert"), none, js "", [(js "title", js "old")], js "body", js ""⟩
    (js "title") (js "hello") (by decide) (by decide)).1 (by decide)

/-- C9: the Navigation Guard navigates exactly when the present `location`
value differs from the current location path: an equal value is a no-op, a
different value performs exactly one navigation to that value. -/
theorem c9_navigation_guard_iff (u : JStr) (st : PullState) :
    (u = st.path → update_location (some u) st = st)
    ∧ (¬ u = st.path → update_location (some u) st = { st with navs := st.navs ++ [u] }) := by
  constructor
  · intro h; simp [update_location, h]
  · intro h; simp [update_location, h]

/-- Witness for C9: current location /status, update carries /wallet. -/
theorem c9_navigation_guard_iff_witness :
    update_location (some (js "/wallet")) ⟨[], js "/status", []⟩
      = ⟨[], js "/status", [js "/wallet"]⟩ :=
  (c9_navigation_guard_iff (js "/wallet") ⟨[], js "/status", []⟩).2 (by decide)

/-- C10: the decision whether the element is already disabled is a substring
search over the whole class-attribute string: whenever "disabled" occurs
anywhere in the class string, also inside a longer token such as
"notdisabled", applying the directive state=disabled leaves the element
unchanged. -/
theorem c10_state_disabled_substring_check (e : Elem)
    (h : js "disabled" <:+: e.className) :
    update_element e (js "state") (js "disabled") = .ok e := by
  have hs : (idxOf? (js "disabled") e.className).isSome :=
    (idxOf?_isSome_iff_occurs (js "disabled") e.className).mpr h
  obtain ⟨k, hk⟩ := Option.isSome_iff_exists.mp hs
  exact update_element_state_found e (js "disabled") k (by decide) hk

/-- Witness for C10 on a class string containing "disabled" only inside the
longer token "notdisabled". -/
theorem c10_state_disabled_substring_check_witness :
    update_element ⟨none, some (js "nav-link"), js "notdisabled link", [], js "", js ""⟩
        (js "state") (js "disabled")
      = .ok ⟨none, some (js "nav-link"), js "notdisabled link", [], js "", js ""⟩ :=
  c10_state_disabled_substring_check
    ⟨none, some (js "nav-link"), js "notdisabled link", [], js "", js ""⟩ (by decide)

/-- C6 counterexample: applying state=enabled to the class string
"btn disabled active" yields "btn ", not "btn active": the token "active",
which is not the disabled token, is removed as well, refuting the claim that
every other token of the class set is preserved unchanged. -/
theorem c6_counterexample_truncation_loses_tokens :
    update_element ⟨none, some (js "m"), js "btn disabled active", [], js "", js ""⟩
        (js "state") (js "enabled")
      = .ok ⟨none, some (js "m"), js "btn ", [], js "", js ""⟩
    ∧ ¬ js "active" <:+: js "btn " :=
  ⟨rfl, by decide⟩

/-- C6 amended: applying state=enabled truncates the class string at the first
occurrence of "disabled": when no occurrence exists the element is unchanged;
when the first occurrence starts at position k, the class becomes its prefix
of length k, so every occurrence of the disabled token (even three or more) is
removed and none remains, the part of the class before the first occurrence is
preserved, and every character at or after the first occurrence — including
any later tokens — is removed. -/
theorem c6_state_enabled_truncates_at_first_disabled (e : Elem) :
    (idxOf? (js "disabled") e.className = none →
      update_element e (js "state") (js "enabled") = .ok e)
    ∧ ∀ k, idxOf? (js "disabled") e.className = some k →
      update_element e (js "state") (js "enabled")
          = .ok { e with className := e.className.take k }
      ∧ idxOf? (js "disabled") (e.className.take k) = none := by
  constructor
  · intro h
    rw [update_element_state_enabled, enableLoop_of_none h (e.className.length)]
  · intro k h
    refine ⟨?_, idxOf?_take_first (by decide) h⟩
    rw [update_element_state_enabled, enableLoop_of_some h]

/-- Witness for C6 amended, with the disabled token present three times. -/
theorem c6_state_enabled_truncates_witness :
    update_element ⟨none, some (js "m"), js "nav disabled disabled disabled", [], js "", js ""⟩
        (js "state") (js "enabled")
      = .ok { (⟨none, some (js "m"), js "nav disabled disabled disabled", [], js "", js ""⟩ : Elem)
                with className := (js "nav disabled disabled disabled").take 4 }
    ∧ idxOf? (js "disabled") ((js "nav disabled disabled disabled").take 4) = none :=
  (c6_state_enabled_truncates_at_first_disabled
      ⟨none, some (js "m"), js "nav disabled disabled disabled", [], js "", js ""⟩).2
    4 (by decide)

/-- C7 counterexample: re-applying a non-enabled state value when that state is
already set is not in general a no-op: applying state=active to a class "btn"
and then applying state=active again appends a duplicate "active" token,
because the already-set check searches for the substring "disabled" and not
for the applied value. -/
theorem c7_counterexample_reapply_duplicates :
    update_element ⟨none, some (js "m"), js "btn", [], js "", js ""⟩
        (js "state") (js "active")
      = .ok ⟨none, some (js "m"), js "btn active", [], js "", js ""⟩
    ∧ update_element ⟨none, some (js "m"), js "btn active", [], js "", js ""⟩
        (js "state") (js "active")
      = .ok ⟨none, some (js "m"), js "btn active active", [], js "", js ""⟩
    ∧ js "btn active active" ≠ js "btn active" :=
  ⟨rfl, rfl, by decide⟩

/-- C7 amended: applying state=enabled twice yields the same result as
applying it once, and applying state=disabled twice yields the same result as
applying it once; re-applying a non-enabled state value is a no-op exactly in
the case where the class string already contains the substring "disabled"
(which holds after state=disabled, but not after other values such as
state=active, whose re-application duplicates the token). -/
theorem c7_state_toggle_idempotence_amended (e : Elem) :
    ((update_element e (js "state") (js "enabled")).bind
        (fun x => update_element x (js "state") (js "enabled"))
      = update_element e (js "state") (js "enabled"))
    ∧ ((update_element e (js "state") (js "disabled")).bind
        (fun x => update_element x (js "state") (js "disabled"))
      = update_element e (js "state") (js "disabled"))
    ∧ (∀ v, ¬ v = js "enabled" → (idxOf? (js "disabled") e.className).isSome →
      update_element e (js "state") v = .ok e) := by
  refine ⟨?_, ?_, ?_⟩
  · cases h : idxOf? (js "disabled") e.className with
    | none =>
      have h1 : update_element e (js "state") (js "enabled") = .ok e := by
        rw [update_element_state_enabled, enableLoop_of_none h (e.className.length)]
      rw [h1]
      show update_element e (js "state") (js "enabled") = .ok e
      exact h1
    | some k =>
      have h1 : update_element e (js "state") (js "enabled")
          = .ok { e with className := e.className.take k } := by
        rw [update_element_state_enabled, enableLoop_of_some h]
      have h2 : update_element { e with className := e.className.take k }
          (js "state") (js "enabled")
          = .ok { e with className := e.className.take k } := by
        rw [update_element_state_enabled]
        dsimp only
        rw [enableLoop_of_none (idxOf?_take_first (by decide) h) ((e.className.take k).length)]
      rw [h1]
      show update_element { e with className := e.className.take k } (js "state") (js "enabled")
          = .ok { e with className := e.className.take k }
      exact h2
  · cases h : idxOf? (js "disabled") e.className with
    | none =>
      have h1 : update_element e (js "state") (js "disabled")
          = .ok { e with className := e.className ++ js " " ++ js "disabled" } := by
        exact update_element_state_missing e (js "disabled") (by decide) h
      have hinf : js "disabled" <:+: e.className ++ js " " ++ js "disabled" :=
        ⟨e.className ++ js " ", [], by simp⟩
      have hsome : (idxOf? (js "disabled") (e.className ++ js " " ++ js "disabled")).isSome :=
        (idxOf?_isSome_iff_occurs (js "disabled") (e.className ++ js " " ++ js "disabled")).mpr hinf
      obtain ⟨k2, hk2⟩ := Option.isSome_iff_exists.mp hsome
      have h2 : update_element { e with className := e.className ++ js " " ++ js "disabled" }
          (js "state") (js "disabled")
          = .ok { e with className := e.className ++ js " " ++ js "disabled" } :=
        update_element_state_found _ (js "disabled") k2 (by decide) hk2
      rw [h1]
      show update_element { e with className := e.className ++ js " " ++ js "disabled" }
          (js "state") (js "disabled")
          = .ok { e with className := e.className ++ js " " ++ js "disabled" }
      exact h2
    | some k =>
      have h1 : update_element e (js "state") (js "disabled") = .ok e :=
        update_element_state_found e (js "disabled") k (by decide) h
      rw [h1]
      show update_element e (js "state") (js "disabled") = .ok e
      exact h1
  · intro v hv hsome
    obtain ⟨k, hk⟩ := Option.isSome_iff_exists.mp hsome
    exact update_element_state_found e v k hv hk

/-- Witness for C7 amended: state=disabled is a no-op on a class already
containing the disabled token. -/
theorem c7_state_toggle_idempotence_witness :
    update_element ⟨none, some (js "m"), js "x disabled", [], js "", js ""⟩
        (js "state") (js "disabled")
      = .ok ⟨none, some (js "m"), js "x disabled", [], js "", js ""⟩ :=
  (c7_state_toggle_idempotence_amended
      ⟨none, some (js "m"), js "x disabled", [], js "", js ""⟩).2.2
    (js "disabled") (by decide) (by decide)

/-- C3 counterexample: with an element whose unique identifier is "alert"
(carrying title "old") and another element whose name group is "alert"
(carrying title "oldB"), the attribute directive alert=title=new updates only
the named-group element and leaves the identifier element untouched — the
unique-identifier element is not the target set, refuting the claimed
identifier precedence for attribute directives. -/
theorem c3_counterexample_attribute_prefers_named_group :
    update_attribute (js "alert") (js "title=new")
        [⟨some (js "alert"), none, js "", [(js "title", js "old")], js "A", js ""⟩,
         ⟨none, some (js "alert"), js "", [(js "title", js "oldB")], js "B", js ""⟩]
      = ([⟨some (js "alert"), none, js "", [(js "title", js "old")], js "A", js ""⟩,
          ⟨none, some (js "alert"), js "", [(js "title", js "new")], js "B", js ""⟩], none)
    ∧ js "old" ≠ js "new" :=
  ⟨rfl, by decide⟩

/-- C3 amended: resolution precedence differs between the two directive kinds.
For content directives the unique-identifier lookup takes precedence: when
some element matches the identifier, every element not matching the identifier
(named-group members included) is left unchanged by the content update.  For
attribute directives the named-group lookup takes precedence: when some
element matches the name group, every element not in the group (the
unique-identifier match included) is left unchanged by the attribute
update. -/
theorem c3_amended_resolution_precedence (doc : Doc) (nm value : JStr) (i : Nat) (e : Elem)
    (he : doc[i]? = some e) :
    ((doc.any fun x => decide (x.id = some nm)) = true → ¬ e.id = some nm →
      (update_html nm value doc)[i]? = some e)
    ∧ ((doc.any fun x => decide (x.name = some nm)) = true → ¬ e.name = some nm →
      ((update_attribute nm value doc).1)[i]? = some e) := by
  constructor
  · intro hany hid
    have hf : (doc.find? (fun x => decide (x.id = some nm))).isSome := by
      rw [List.find?_isSome]
      exact List.any_eq_true.mp hany
    obtain ⟨w, hw⟩ := Option.isSome_iff_exists.mp hf
    unfold update_html
    rw [hw]
    exact mapFirst_getElem?_of_neg _ _ doc i e he (by simp [hid])
  · intro _ hn
    unfold update_attribute
    by_cases hc : value ≠ [] ∧ (idxOf? (js "=") value).isSome
    · rw [if_pos hc]
      cases hj : idxOf? (js "=") value with
      | none => simpa using he
      | some j =>
        by_cases ha : doc.any (fun x => decide (x.name = some nm)) = true
        · simp only [ha, if_true]
          exact applyToNamed_getElem?_of_neg nm (value.take j) (value.drop (j + 1)) doc i e he hn
        · simp only [ha, if_false]
          simpa using he
    · rw [if_neg hc]
      simpa using he

/-- Witness for C3 amended: the identifier element is untouched by an
attribute directive when a named-group match exists. -/
theorem c3_amended_resolution_precedence_witness :
    ((update_attribute (js "alert") (js "title=new")
        [⟨some (js "alert"), none, js "", [(js "title", js "old")], js "A", js ""⟩,
         ⟨none, some (js "alert"), js "", [(js "title", js "oldB")], js "B", js ""⟩]).1)[0]?
      = some ⟨some (js "alert"), none, js "", [(js "title", js "old")], js "A", js ""⟩ :=
  (c3_amended_resolution_precedence
      [⟨some (js "alert"), none, js "", [(js "title", js "old")], js "A", js ""⟩,
       ⟨none, some (js "alert"), js "", [(js "title", js "oldB")], js "B", js ""⟩]
      (js "alert") (js "title=new") 0
      ⟨some (js "alert"), none, js "", [(js "title", js "old")], js "A", js ""⟩
      (by decide)).2 (by decide) (by decide)

/-- C4: a delivered body on which the envelope decode fails is dropped whole:
the state (tree, path, navigations) is left unchanged with no partial
application, the failure surfaces as a diagnostic, and the delivery loop is
not crashed — processing the remaining deliveries is identical to processing
them without the malformed one. -/
theorem c4_decode_failure_drops_whole_message (raw : JStr) (st : PullState)
    (rest : List Body) :
    process_response (Body.malformed raw) st
        = (st, some (js "SyntaxError: unexpected token in JSON"))
    ∧ pull_deliver st (Body.malformed raw :: rest) = pull_deliver st rest := by
  constructor
  · rfl
  · simp [pull_deliver, process_response]

/-- C5 counterexample: a message carrying the unclassified field name "error"
with a nonempty value alongside the known field header does not apply the
header update, while the same message without the "error" field does — the
presence of this unrecognized field suppresses the known fields. -/
theorem c5_counterexample_error_field_suppresses :
    (process_response (Body.parsed [(js "error", js "boom"), (js "header", js "H")])
        ⟨[⟨some (js "header"), none, js "", [], js "old", js ""⟩], js "/p", []⟩).1
      ≠ (process_response (Body.parsed [(js "header", js "H")])
        ⟨[⟨some (js "header"), none, js "", [], js "old", js ""⟩], js "/p", []⟩).1 := by
  decide

/-- C5 amended: a field whose name is neither in the classification table nor
equal to "error" is ignored silently: removing it from a message leaves
process_response unchanged, so it never suppresses the known fields.  The one
exception is the field name "error" with a nonempty value, which the
dispatcher treats as a server error report: it is logged and the entire
message is skipped. -/
theorem c5_amended_unknown_field_ignored (st : PullState) (pre post : Msg) (nm v : JStr)
    (hk : ¬ nm ∈ ([js "header", js "notice", js "subnotice", js "progress",
                   js "alert", js "nav-link", js "location"] : List JStr))
    (he : ¬ nm = js "error") :
    process_response (Body.parsed (pre ++ (nm, v) :: post)) st
      = process_response (Body.parsed (pre ++ post)) st := by
  have hfind : lookupField (pre ++ (nm, v) :: post) (js "error")
      = lookupField (pre ++ post) (js "error") := by
    unfold lookupField
    rw [find?_middle_of_neg _ (nm, v) (by simp [he]) pre post]
  simp only [process_response]
  rw [hfind]
  cases hl : lookupField (pre ++ post) (js "error") with
  | none => exact dispatch_fields_insert_unknown nm v hk pre post st
  | some ev =>
    by_cases hev : ev ≠ []
    · simp [hev]
    · simp only [if_neg hev]
      exact dispatch_fields_insert_unknown nm v hk pre post st

/-- Witness for C5 amended: a message with an extra "burger" field applies
exactly as the message without it. -/
theorem c5_amended_unknown_field_ignored_witness :
    process_response (Body.parsed [(js "header", js "H"), (js "burger", js "?")])
        ⟨[⟨some (js "header"), none, js "", [], js "old", js ""⟩], js "/p", []⟩
      = process_response (Body.parsed [(js "header", js "H")])
        ⟨[⟨some (js "header"), none, js "", [], js "old", js ""⟩], js "/p", []⟩ :=
  c5_amended_unknown_field_ignored
    ⟨[⟨some (js "header"), none, js "", [], js "old", js ""⟩], js "/p", []⟩
    [(js "header", js "H")] [] (js "burger") (js "?") (by decide) (by decide)

/-- C1 counterexample: a message consisting of the documented field `button`
is applied by the push pipeline (content update of the button element) but
silently ignored by the pull pipeline, whose dispatcher lists only header,
notice, subnotice and progress as content fields — so the two delivery models
do not yield the same end state on this message and tree. -/
theorem c1_counterexample_button_diverges :
    (dispatch_fields ⟨[⟨some (js "button"), none, js "", [], js "old", js ""⟩], js "/p", []⟩
        [(js "button", js "new")]).1
      ≠ update [(js "button", js "new")]
          ⟨[⟨some (js "button"), none, js "", [], js "old", js ""⟩], js "/p", []⟩ := by
  decide

/-- C1 amended: for every field of the shared vocabulary (header, notice,
subnotice, progress, alert, nav-link, location), processing a single-field
message through the pull pipeline and through the push pipeline yields the
same end state — each shared field is routed to the same directive handler in
both variants.  The field `button` is routed to the content handler only by
the push variant and is ignored by the pull variant. -/
theorem c1_amended_shared_vocabulary_agree (nm : JStr)
    (h : nm ∈ ([js "header", js "notice", js "subnotice", js "progress",
                js "alert", js "nav-link", js "location"] : List JStr))
    (v : JStr) (st : PullState) :
    (dispatch_fields st [(nm, v)]).1 = update [(nm, v)] st := by
  rw [dispatch_fields_single]
  simp only [List.mem_cons, List.not_mem_nil, or_false] at h
  rcases h with rfl | rfl | rfl | rfl | rfl | rfl | rfl <;> rfl

/-- Witness for C1 amended at the shared field header. -/
theorem c1_amended_shared_vocabulary_agree_witness :
    (dispatch_fields ⟨[⟨some (js "header"), none, js "", [], js "old", js ""⟩], js "/p", []⟩
        [(js "header", js "H")]).1
      = update [(js "header", js "H")]
          ⟨[⟨some (js "header"), none, js "", [], js "old", js ""⟩], js "/p", []⟩ :=
  c1_amended_shared_vocabulary_agree (js "header") (by decide) (js "H")
    ⟨[⟨some (js "header"), none, js "", [], js "old", js ""⟩], js "/p", []⟩

end BlockchainBackup
